import Mathlib

set_option maxRecDepth 4000

/- Shallow embedding of src/main.rs of the cargo-crates tool.

   The file system is modelled as an explicit read-only structure; Rust
   Option and Result failures become Lean Option values; a Rust panic
   (process abort) is the RunRes.crash outcome. String search works on
   character lists: the byte indices produced by str::find and
   Regex::find always sit on character boundaries, so character indices
   are a faithful rendering for every valid UTF-8 content. -/

/-- Result of running code that may panic and abort the process. -/
inductive RunRes (α : Type) where
  | crash : RunRes α
  | ret (a : α) : RunRes α
deriving DecidableEq

/-- The package index HashMap of String to (version, description),
modelled as an association list: insertion prepends and lookup takes the
first match, so a later insert overwrites exactly as HashMap::insert. -/
abbrev PkgMap := List (String × (String × String))

/-- HashMap::insert. -/
def mapInsert (m : PkgMap) (k : String) (v : String × String) : PkgMap :=
  (k, v) :: m

/-- HashMap::get. -/
def mapLookup : PkgMap → String → Option (String × String)
  | [], _ => none
  | (k2, v) :: rest, k => if k2 == k then some v else mapLookup rest k

/-- Whether the pattern is a leading segment of the list. -/
def leadsWith : List Char → List Char → Bool
  | [], _ => true
  | _ :: _, [] => false
  | p :: ps, c :: cs => p == c && leadsWith ps cs

/-- Index of the first occurrence of pat as a substring: str::find(str). -/
def findSub (pat : List Char) : List Char → Option Nat
  | [] => if leadsWith pat [] then some 0 else none
  | c :: rest =>
    if leadsWith pat (c :: rest) then some 0
    else (findSub pat rest).map (fun i => i + 1)

/-- Index of the first occurrence of a character: str::find(char). -/
def charIdx (c : Char) : List Char → Option Nat
  | [] => none
  | a :: rest => if a == c then some 0 else (charIdx c rest).map (fun i => i + 1)

/-- Index of the last occurrence of a character: str::rfind(char). -/
def charIdxRev (c : Char) (l : List Char) : Option Nat :=
  match charIdx c l.reverse with
  | none => none
  | some i => some (l.length - 1 - i)

/-- The Rust slice s[a..b]: none when a > b or b exceeds the length,
the two cases in which Rust panics. -/
def sliceRange (l : List Char) (a b : Nat) : Option (List Char) :=
  if a ≤ b then
    if b ≤ l.length then some ((l.drop a).take (b - a)) else none
  else none

/-- Length of the leading run of decimal digits, and the remainder.
The directory names the tool meets are ASCII, so the ASCII digit class
stands in for the digit character class of the regex crate. -/
def digitSpan : List Char → Nat × List Char
  | [] => (0, [])
  | c :: rest =>
    if c.isDigit then
      let s := digitSpan rest
      (s.1 + 1, s.2)
    else (0, c :: rest)

/-- Whether the version regex of line 75 matches at the head of l.
A backtracking match of a bounded digit group succeeds exactly when the
maximal digit run has length 1 to 3 and is followed by the literal dot,
since stopping earlier leaves a digit, not a dot, as the next char. -/
def versionMatchAt (l : List Char) : Bool :=
  match l with
  | '-' :: rest =>
    let s1 := digitSpan rest
    if 1 ≤ s1.1 ∧ s1.1 ≤ 3 then
      match s1.2 with
      | '.' :: r2 =>
        let s2 := digitSpan r2
        if 1 ≤ s2.1 ∧ s2.1 ≤ 3 then
          match s2.2 with
          | '.' :: r3 => decide (1 ≤ (digitSpan r3).1)
          | _ => false
        else false
      | _ => false
    else false
  | _ => false

/-- Start index of the leftmost match of the version regex:
Regex::find, of which only the start position is used (line 105). -/
def reFindStart : List Char → Option Nat
  | [] => none
  | c :: rest =>
    if versionMatchAt (c :: rest) then some 0
    else (reFindStart rest).map (fun i => i + 1)

/-- The literal searched for at line 97. -/
def descPat : List Char := "description = \"".toList

/-- The literal searched for at line 116. -/
def binPat : List Char := "[[bin]]\nname = \"".toList

/-- One directory entry two levels below registry/src, as the scanner
sees it: file_name().to_str() (none when the name is not valid UTF-8),
path().to_str() (none when the full path is not valid UTF-8), and the
Cargo.toml of the entry: none when File::open fails, some none when
read_to_string fails (non-UTF-8 file), some (some s) for content s. -/
structure DirEnt where
  fileName : Option String
  pathStr : Option String
  toml : Option (Option String)

/-- A first-level entry of registry/src: sub is the read_dir of its
path, none when read_dir fails; the list holds the Ok entries only,
which is what the flatten of line 83 keeps. -/
structure SrcDir where
  sub : Option (List DirEnt)

/-- The read-only file system as the tool queries it. readable models
fs::read_dir(path).is_ok() on an install-root candidate (line 28); bin
models the read_dir listing of a bin directory, each entry name none
when not valid UTF-8, Err entries dropped as the filter_map of line 48
does; src models the read_dir listing of a registry/src directory. -/
structure FS where
  readable : String → Bool
  bin : String → Option (List (Option String))
  src : String → Option (List SrcDir)

/-- std::env::VarError. The payload of NotUnicode is dropped: it is
only ever compared inside runs of Err values by Vec::dedup, and whether
such a run collapses is invisible after the later flatten. -/
inductive VarError where
  | notPresent : VarError
  | notUnicode : VarError
deriving DecidableEq

/-- Result of std::env::var. -/
inductive VarResult where
  | ok (s : String) : VarResult
  | err (e : VarError) : VarResult
deriving DecidableEq

/-- Result::map, as applied to the HOME variable at line 22. -/
def varMap (f : String → String) : VarResult → VarResult
  | .ok s => .ok (f s)
  | .err e => .err e

/-- What the flatten of line 26 keeps of a Result. -/
def varToOption : VarResult → Option String
  | .ok s => some s
  | .err _ => none

/-- The three environment variables the tool reads. -/
structure EnvVars where
  cargo_install_root : VarResult
  cargo_home : VarResult
  home : VarResult

/-- Vec::dedup: remove consecutive equal elements. -/
def dedupConsec {α : Type} [DecidableEq α] : List α → List α
  | [] => []
  | [a] => [a]
  | a :: b :: t => if a = b then dedupConsec (b :: t) else a :: dedupConsec (b :: t)

/-- The candidate vector built at lines 19-23. -/
def rawCandidates (env : EnvVars) : List VarResult :=
  [env.cargo_install_root, env.cargo_home, varMap (fun x => x ++ "/.cargo") env.home]

/-- src/main.rs lines 16-35: dedup the candidates, keep the Ok values,
keep those on which fs::read_dir succeeds. -/
def determine_pkgs_install_dir (env : EnvVars) (fs : FS) : List String :=
  ((dedupConsec (rawCandidates env)).filterMap varToOption).filter (fun x => fs.readable x)

/-- src/main.rs lines 37-57: list the names in the bin directory; None
both when the directory cannot be read and when no name is collected. -/
def list_pkgs (fs : FS) (ir : String) : Option (List String) :=
  match fs.bin (ir ++ "/bin") with
  | none => none
  | some ents =>
    let names := ents.filterMap id
    if names.isEmpty then none else some names

/-- Lines 115-128: the alternate-name block, run after the primary
insert. bend = 0 reproduces the end - 1 slice panic of line 122. -/
def scanAlt (map : PkgMap) (pkg_ver desc : String) (content : List Char) :
    RunRes (Option PkgMap) :=
  match findSub binPat content with
  | none => .ret (some map)
  | some bstart =>
    match charIdx '\n' (content.drop (bstart + binPat.length)) with
    | none => .ret (some map)
    | some bend =>
      if bend = 0 then .crash
      else
        let alt_pkg_name := String.mk ((content.drop (bstart + binPat.length)).take (bend - 1))
        .ret (some (mapInsert map alt_pkg_name (pkg_ver, desc)))

/-- Lines 104-113: split the directory name at the first regex match,
insert the primary record, then run the alternate-name block. -/
def scanVersion (map : PkgMap) (pkg_name desc : String) (content : List Char) :
    RunRes (Option PkgMap) :=
  match reFindStart pkg_name.toList with
  | none => .ret (some map)
  | some i =>
    let pkg_ver := String.mk (pkg_name.toList.drop (i + 1))
    let name := String.mk (pkg_name.toList.take i)
    scanAlt (mapInsert map name (pkg_ver, desc)) pkg_ver desc content

/-- Lines 96-102: description extraction. The case of the first and
last quote coinciding reproduces the start + 1 > end slice panic. -/
def scanDesc (map : PkgMap) (pkg_name : String) (content : List Char) :
    RunRes (Option PkgMap) :=
  match findSub descPat content with
  | none => .ret (some map)
  | some dstart =>
    match charIdx '\n' (content.drop dstart) with
    | none => .ret (some map)
    | some dend =>
      let decs := (content.drop dstart).take dend
      match charIdx '"' decs with
      | none => .ret (some map)
      | some s1 =>
        match charIdxRev '"' decs with
        | none => .ret (some map)
        | some e1 =>
          match sliceRange decs (s1 + 1) e1 with
          | none => .crash
          | some descChars => scanVersion map pkg_name (String.mk descChars) content

/-- Lines 83-129: one package-directory entry. The ret none outcome is
the question-mark operator applied to dir.path().to_str() at line 89,
which returns None from the whole get_pkgs_info. -/
def processEntry (map : PkgMap) : DirEnt → RunRes (Option PkgMap)
  | ⟨none, _, _⟩ => .ret (some map)
  | ⟨some _, none, _⟩ => .ret none
  | ⟨some _, some _, none⟩ => .ret (some map)
  | ⟨some _, some _, some none⟩ => .ret (some map)
  | ⟨some pkg_name, some _, some (some content)⟩ => scanDesc map pkg_name content.toList

/-- The inner loop of lines 83-129 over the package directories. -/
def scanEntries (map : PkgMap) : List DirEnt → RunRes (Option PkgMap)
  | [] => .ret (some map)
  | d :: ds =>
    match processEntry map d with
    | .crash => .crash
    | .ret none => .ret none
    | .ret (some m) => scanEntries m ds

/-- The outer loop of lines 79-130 over the registry directories. -/
def scanSrcDirs (map : PkgMap) : List SrcDir → RunRes (Option PkgMap)
  | [] => .ret (some map)
  | s :: ss =>
    match s.sub with
    | none => scanSrcDirs map ss
    | some ents =>
      match scanEntries map ents with
      | .crash => .crash
      | .ret none => .ret none
      | .ret (some m) => scanSrcDirs m ss

/-- src/main.rs lines 60-137: None when registry/src cannot be read,
when the question-mark operator fires, or when the final map is empty. -/
def get_pkgs_info (fs : FS) (ir : String) : RunRes (Option PkgMap) :=
  match fs.src (ir ++ "/registry/src") with
  | none => .ret none
  | some srcDirs =>
    match scanSrcDirs [] srcDirs with
    | .crash => .crash
    | .ret none => .ret none
    | .ret (some m) => .ret (if m.isEmpty then none else some m)

/-- src/main.rs lines 139-144. -/
structure CliOptions where
  print_versions : Bool
  print_descs : Bool
  print_paths : Bool
deriving DecidableEq

/-- Loop of lines 182-190; none models the help exit of line 185. -/
def parseArgsLoop (op : CliOptions) : List String → Option CliOptions
  | [] => some op
  | arg :: rest =>
    if arg = "-h" ∨ arg = "--help" then none
    else
      parseArgsLoop
        { print_versions := arg.toList.contains 'v'
          print_descs := arg.toList.contains 'd'
          print_paths := arg.toList.contains 'p' } rest

/-- src/main.rs lines 176-192; the drop 1 is the skip(1) of line 182. -/
def parse_args (args : List String) : Option CliOptions :=
  parseArgsLoop ⟨false, false, false⟩ (args.drop 1)

/-- Lines 239-241: str::find(".exe") and truncation of the display
name. Applied after the lookup, it only affects what is printed. -/
def stripExe (pkg : String) : String :=
  match findSub ".exe".toList pkg.toList with
  | none => pkg
  | some i => String.mk (pkg.toList.take i)

/-- Lines 234-241: resolve one listed binary to its printed record
(display name, version, description). The map lookup uses the entry
name as listed; the .exe stripping happens afterwards. -/
def resolveEntry (map : PkgMap) (pkg : String) : String × String × String :=
  let vd := match mapLookup map pkg with
    | some o => o
    | none => ("n/a", "n/a")
  (stripExe pkg, vd.1, vd.2)

/-- The report loop of lines 233-259, one record per listed binary. -/
def reportRecords (map : PkgMap) (pkgs : List String) : List (String × String × String) :=
  pkgs.map (fun p => resolveEntry map p)

/-- The three fatal conditions main panics with. -/
inductive MainErr where
  | rootNotFound : MainErr
  | noBinaries : MainErr
  | noInfo : MainErr
deriving DecidableEq

/-- What a successful run prints. -/
inductive MainOut where
  | pathsOut (dirs : List String) : MainOut
  | report (records : List (String × String × String)) : MainOut
deriving DecidableEq

/-- Outcome of main: fatal is one of the three panic messages of lines
203, 226 and 229; crashed is a slice panic escaping get_pkgs_info. -/
inductive MainRes where
  | fatal (e : MainErr)
  | crashed : MainRes
  | okOut (out : MainOut)
deriving DecidableEq

/-- The list_pkgs half of the loop at lines 214-223. -/
def collectPkgs (fs : FS) (dirs : List String) : List String :=
  dirs.foldl
    (fun acc d =>
      match list_pkgs fs d with
      | some ps => acc ++ ps
      | none => acc) []

/-- The get_pkgs_info half of the loop at lines 214-223; map.extend
makes the entries of the new map win, which prepending them does under
first-match lookup. -/
def collectMaps (fs : FS) : List String → PkgMap → RunRes PkgMap
  | [], m => .ret m
  | d :: ds, m =>
    match get_pkgs_info fs d with
    | .crash => .crash
    | .ret none => collectMaps fs ds m
    | .ret (some m2) => collectMaps fs ds (m2 ++ m)

/-- src/main.rs lines 194-264 after argument parsing: locate the roots,
bail out on an empty list, list binaries and scan metadata over all
roots, then emit one record per binary. -/
def mainCore (env : EnvVars) (fs : FS) (opts : CliOptions) : MainRes :=
  let install_dirs := determine_pkgs_install_dir env fs
  if install_dirs.isEmpty then .fatal .rootNotFound
  else if opts.print_paths then .okOut (.pathsOut install_dirs)
  else
    let pkgs := collectPkgs fs install_dirs
    match collectMaps fs install_dirs [] with
    | .crash => .crashed
    | .ret m =>
      if pkgs.isEmpty then .fatal .noBinaries
      else if m.isEmpty then .fatal .noInfo
      else .okOut (.report (reportRecords m pkgs))

/- Concrete fixtures used by the claim theorems. Each claim keeps its
own fixtures so they can be read independently. -/

/-- A cached package directory foo-cli-1.2.3 with a plain manifest. -/
def entC5foo : DirEnt :=
  ⟨some "foo-cli-1.2.3", some "pa", some (some "description = \"demo\"\n")⟩

/-- A directory whose name has no version-shaped substring. -/
def entC5weird : DirEnt :=
  ⟨some "weird_dir_no_version", some "pb", some (some "description = \"x\"\n")⟩

/-- A directory name with text after the version match: the version is
everything after the hyphen of the first match, to the end. -/
def entC5multi : DirEnt :=
  ⟨some "a-1.2.3-4.5.6", some "pc", some (some "description = \"z\"\n")⟩

/-- A file system whose registry/src holds the three C5 entries. -/
def fsC5 : FS :=
  { readable := fun _ => false
    bin := fun _ => none
    src := fun s =>
      if s = "root/registry/src" then some [⟨some [entC5foo, entC5weird, entC5multi]⟩]
      else none }

/-- A valid cached package directory, scanned first. -/
def entC1foo : DirEnt :=
  ⟨some "foo-cli-1.2.3", some "pa", some (some "description = \"demo\"\n")⟩

/-- An entry whose full path is not valid UTF-8 (a registry-id
directory with a non-UTF-8 name): file_name converts, path does not. -/
def entC1bad : DirEnt :=
  ⟨some "bar-1.0.0", none, some (some "description = \"d\"\n")⟩

/-- Registry with a good entry followed by the bad-path entry. -/
def fsC1 : FS :=
  { readable := fun _ => false
    bin := fun _ => none
    src := fun _ => some [⟨some [entC1foo, entC1bad]⟩] }

/-- The same registry without the bad-path entry. -/
def fsC1ok : FS :=
  { readable := fun _ => false
    bin := fun _ => none
    src := fun _ => some [⟨some [entC1foo]⟩] }

/-- A root whose bin directory cannot be read at all. -/
def fsNoBin : FS :=
  { readable := fun _ => false
    bin := fun _ => none
    src := fun _ => none }

/-- A root whose bin directory exists but holds zero entries. -/
def fsEmptyBin : FS :=
  { readable := fun _ => false
    bin := fun _ => some []
    src := fun _ => none }

/-- Manifest with a [[bin]] block naming alt-name. -/
def entC7bin : DirEnt :=
  ⟨some "foo-cli-1.2.3", some "pd",
    some (some "description = \"demo\"\n[[bin]]\nname = \"alt-name\"\n")⟩

/-- The same manifest without the [[bin]] block. -/
def entC7nobin : DirEnt :=
  ⟨some "foo-cli-1.2.3", some "pd", some (some "description = \"demo\"\n")⟩

/-- Environment with a single candidate that is not a readable
directory. -/
def envC8 : EnvVars :=
  ⟨.ok "nope", .err .notPresent, .err .notPresent⟩

/-- A file system on which every read fails. -/
def fsDead : FS :=
  { readable := fun _ => false
    bin := fun _ => none
    src := fun _ => none }

/-- Options with every display flag off. -/
def optsQuiet : CliOptions := ⟨false, false, false⟩

/-- A one-entry index used by the C9 witness. -/
def mC9 : PkgMap := [("alpha", ("0.1.0", "demo"))]

/- Helper lemmas (not tied to a single claim). -/

/-- dedupConsec only removes elements: its result is a sublist. -/
theorem dedupConsec_sublist {α : Type} [DecidableEq α] :
    (l : List α) → (dedupConsec l).Sublist l
  | [] => by simp [dedupConsec]
  | [a] => by simp [dedupConsec]
  | a :: b :: t => by
    rw [dedupConsec]
    by_cases h : a = b
    · simp only [if_pos h]
      exact (dedupConsec_sublist (b :: t)).cons a
    · simp only [if_neg h]
      exact (dedupConsec_sublist (b :: t)).cons₂ a

/-- dedupConsec keeps the head of the list. -/
theorem dedupConsec_head {α : Type} [DecidableEq α] :
    (x : α) → (xs : List α) → (dedupConsec (x :: xs)).head? = some x
  | _, [] => rfl
  | x, y :: ys => by
    rw [dedupConsec]
    by_cases h : x = y
    · simp only [if_pos h]
      rw [h]
      exact dedupConsec_head y ys
    · rw [if_neg h]
      rfl

/-- After dedupConsec no two consecutive elements are equal. -/
theorem dedupConsec_chain {α : Type} [DecidableEq α] :
    (l : List α) → (dedupConsec l).Chain' (fun a b => a ≠ b)
  | [] => by simp [dedupConsec]
  | [a] => by simp [dedupConsec]
  | a :: b :: t => by
    rw [dedupConsec]
    by_cases h : a = b
    · simp only [if_pos h]
      exact dedupConsec_chain (b :: t)
    · simp only [if_neg h]
      rw [List.chain'_cons']
      exact ⟨fun y hy => by rw [dedupConsec_head b t] at hy; simp at hy; exact hy ▸ h,
        dedupConsec_chain (b :: t)⟩

/- Claim theorems. -/

/-- Claim C1. The claim says a failure on an individual
package-directory entry only skips that entry and the scan never
aborts discarding collected records. The code violates this: the
question-mark operator on dir.path().to_str() at line 89 returns None
from the whole get_pkgs_info. Here a registry whose second entry has a
non-UTF-8 path makes the scan return None even though registry/src was
opened and a foo-cli record had already been collected; without that
single entry the same scan succeeds. -/
theorem c1_single_bad_entry_aborts_scan :
    get_pkgs_info fsC1 "root" = .ret none
      ∧ get_pkgs_info fsC1ok "root" = .ret (some [("foo-cli", ("1.2.3", "demo"))]) := by
  decide

/-- Claim C2. The claim says the Reporter looks up a binary named
tool.exe under the stripped key tool. The code strips .exe only after
the lookup: with an index holding the key tool, the entry tool.exe
resolves to the n/a placeholders while its displayed name is stripped
to tool. -/
theorem c2_lookup_before_strip :
    resolveEntry [("tool", ("1.0.0", "tool description"))] "tool.exe" = ("tool", "n/a", "n/a")
      ∧ mapLookup [("tool", ("1.0.0", "tool description"))] "tool"
        = some ("1.0.0", "tool description") := by
  decide

/-- Claim C3, counterexample. The claim says list_pkgs returns distinct
values for a missing bin directory and for an existing empty one; both
return none. -/
theorem c3_counterexample :
    list_pkgs fsNoBin "root" = list_pkgs fsEmptyBin "root"
      ∧ list_pkgs fsNoBin "root" = none := by
  decide

/-- Claim C3, amended: list_pkgs returns none both when the bin
directory cannot be read and when it exists with zero entries; the two
conditions are not distinguished in the return value. -/
theorem c3_both_cases_none (fs : FS) (ir : String)
    (h : fs.bin (ir ++ "/bin") = none ∨ fs.bin (ir ++ "/bin") = some []) :
    list_pkgs fs ir = none := by
  rcases h with h | h <;> simp [list_pkgs, h]

/-- Witness for the amended C3 at the missing-directory fixture. -/
theorem c3_both_cases_none_witness :
    (fsNoBin.bin ("root" ++ "/bin") = none ∨ fsNoBin.bin ("root" ++ "/bin") = some [])
      ∧ list_pkgs fsNoBin "root" = none :=
  ⟨Or.inl rfl, c3_both_cases_none fsNoBin "root" (Or.inl rfl)⟩

/-- Claim C4. The Root Locator returns exactly the candidates that pass
the read_dir filter, taken from the priority-ordered candidate list
with consecutive duplicates collapsed before the filter: the result is
the filter of the deduped candidates, it is a sublist of the original
priority-ordered candidate values (so order is preserved and nothing
else is added), every returned path passes the readable check, and the
deduped intermediate list has no two consecutive equal candidates. -/
theorem c4_root_locator (env : EnvVars) (fs : FS) :
    determine_pkgs_install_dir env fs
        = ((dedupConsec (rawCandidates env)).filterMap varToOption).filter
            (fun x => fs.readable x)
      ∧ (determine_pkgs_install_dir env fs).Sublist ((rawCandidates env).filterMap varToOption)
      ∧ (determine_pkgs_install_dir env fs).all (fun x => fs.readable x) = true
      ∧ (dedupConsec (rawCandidates env)).Chain' (fun a b => a ≠ b) := by
  refine ⟨rfl, ?_, ?_, dedupConsec_chain _⟩
  · exact (List.filter_sublist _).trans (List.Sublist.filterMap _ (dedupConsec_sublist _))
  · exact List.all_eq_true.mpr fun x hx => (List.mem_filter.mp hx).2

/-- Claim C5. The scanner splits a directory name at the first
substring matching the version pattern: foo-cli-1.2.3 gives name
foo-cli and version 1.2.3, a-1.2.3-4.5.6 gives name a and version
1.2.3-4.5.6 (everything after the leading hyphen of the first match),
and weird_dir_no_version produces no record and no error: the scan
returns normally with only the other two records. -/
theorem c5_dir_name_split :
    get_pkgs_info fsC5 "root"
        = .ret (some [("a", ("1.2.3-4.5.6", "z")), ("foo-cli", ("1.2.3", "demo"))])
      ∧ mapLookup [("a", ("1.2.3-4.5.6", "z")), ("foo-cli", ("1.2.3", "demo"))]
          "weird_dir_no_version" = none := by
  decide

/-- Claim C6. For the manifest line of the claim the extracted
description is exactly the text between the first and last double
quote, builds fast things, with no extra trimming; and a manifest with
no occurrence of the description marker yields no record for that
directory, whatever the directory name. -/
theorem c6_description_extraction :
    processEntry []
        ⟨some "foo-1.2.3", some "pp", some (some "description = \"builds fast things\"\n")⟩
        = .ret (some [("foo", ("1.2.3", "builds fast things"))])
      ∧ ∀ (m : PkgMap) (name p content : String),
          findSub descPat content.toList = none →
          processEntry m ⟨some name, some p, some (some content)⟩ = .ret (some m) := by
  constructor
  · decide
  · intro m name p content h
    have h2 : findSub descPat content.data = none := h
    simp [processEntry, scanDesc, h2]

/-- Witness for the second part of C6 at a manifest with no
description marker. -/
theorem c6_description_extraction_witness :
    findSub descPat ("name = \"x\"\n").toList = none
      ∧ processEntry [] ⟨some "foo-1.2.3", some "pp", some (some "name = \"x\"\n")⟩
        = .ret (some []) :=
  ⟨by decide, c6_description_extraction.2 [] "foo-1.2.3" "pp" "name = \"x\"\n" (by decide)⟩

/-- Claim C7. A manifest holding the two-line marker followed by
name = "alt-name" yields two index entries, under foo-cli and under
alt-name, with the identical version-description pair; the same
manifest without the marker yields only the primary entry. -/
theorem c7_alternate_name :
    processEntry [] entC7bin
        = .ret (some [("alt-name", ("1.2.3", "demo")), ("foo-cli", ("1.2.3", "demo"))])
      ∧ processEntry [] entC7nobin = .ret (some [("foo-cli", ("1.2.3", "demo"))]) := by
  decide

/-- Claim C8. When no candidate passes the readable check, the Root
Locator returns the empty list and the run ends with the RootNotFound
fatal condition, for every file system and option set: no later stage
(binary listing, metadata scan, report) contributes to the outcome,
and the embedding contains no directory-creating operation at all. -/
theorem c8_root_not_found (env : EnvVars) (fs : FS) (opts : CliOptions)
    (h : ((rawCandidates env).filterMap varToOption).all (fun x => !fs.readable x) = true) :
    determine_pkgs_install_dir env fs = []
      ∧ mainCore env fs opts = .fatal .rootNotFound := by
  have hdet : determine_pkgs_install_dir env fs = [] := by
    unfold determine_pkgs_install_dir
    apply List.filter_eq_nil_iff.mpr
    intro a ha
    have hmem : a ∈ (rawCandidates env).filterMap varToOption :=
      (List.Sublist.filterMap _ (dedupConsec_sublist _)).subset ha
    have hr := List.all_eq_true.mp h a hmem
    simp at hr ⊢
    exact hr
  exact ⟨hdet, by simp [mainCore, hdet]⟩

/-- Witness for C8: a single candidate that exists as a value but is
not a readable directory. -/
theorem c8_root_not_found_witness :
    ((rawCandidates envC8).filterMap varToOption).all (fun x => !fsDead.readable x) = true
      ∧ (determine_pkgs_install_dir envC8 fsDead = []
        ∧ mainCore envC8 fsDead optsQuiet = .fatal .rootNotFound) :=
  ⟨by decide, c8_root_not_found envC8 fsDead optsQuiet (by decide)⟩

/-- Claim C9. A listed binary whose lookup key misses the index
resolves to the placeholder pair n/a, n/a with its display name still
computed, and the report emits exactly one record per listed binary;
resolution is a total function, so a miss can never raise an error or
end the run. -/
theorem c9_lookup_miss (m : PkgMap) (pkgs : List String) (pkg : String)
    (h : mapLookup m pkg = none) :
    resolveEntry m pkg = (stripExe pkg, "n/a", "n/a")
      ∧ (reportRecords m pkgs).length = pkgs.length := by
  constructor
  · simp [resolveEntry, h]
  · simp [reportRecords]

/-- Witness for C9 at a one-entry index and the missing key beta. -/
theorem c9_lookup_miss_witness :
    mapLookup mC9 "beta" = none
      ∧ (resolveEntry mC9 "beta" = (stripExe "beta", "n/a", "n/a")
        ∧ (reportRecords mC9 ["beta"]).length = ["beta"].length) :=
  ⟨by decide, c9_lookup_miss mC9 ["beta"] "beta" (by decide)⟩

/-- Claim C10. The claim says the options are determined solely by the
last argument string for any argument list, so parse_args on the
one-element list vdp would set all three flags, exactly what the unit
test at lines 289-297 of the source asserts. The code instead skips
the first element of the slice, so that call leaves every flag false;
the same string not in first position does set all three flags. -/
theorem c10_parse_args_skips_first :
    parse_args ["vdp"] = some ⟨false, false, false⟩
      ∧ parse_args ["prog", "vdp"] = some ⟨true, true, true⟩ := by
  decide
